import Mathlib

/-!
Verification development for the RuleDesk documentation translator.

The repository holds two revisions of a CI documentation-translation script:
* `Scripts` embeds `src/.github/scripts/translate_docs.py` (the advanced
  variant: content-hash staleness check, exponential-backoff retry, and a
  model-priority fallback loop);
* `WScripts` embeds `src/.github/workflows/scripts/translate_docs.py` (the
  basic variant: a single hardcoded model, no staleness check, no retry).

Python strings become Lean `String`s, file-system reads become explicit
`Option`/`Bool` parameters describing what the corresponding system call
would return, exceptions become an `Exn` record of the exception's type name
and message, the remote generative-model endpoint becomes an oracle function
from prompt to `Except Exn String`, and the side effects of a run (API
calls, sleeps, file writes) are collected into an explicit event trace.
-/

namespace Scripts

/-- Python's `needle in hay` substring test on strings. -/
def strContains (hay needle : String) : Bool :=
  decide (needle.toList <:+: hay.toList)

/-- Python's `str.isspace` character class, restricted to the ASCII
whitespace characters that can occur in the repository's markdown inputs
(space, tab, newline, carriage return, vertical tab, form feed). -/
def pyIsSpace (c : Char) : Bool :=
  c = ' ' || c = '\t' || c = '\n' || c = '\r' || c = '\x0b' || c = '\x0c'

/-- Python's `str.strip()`: drop leading and trailing whitespace. -/
def pyStrip (s : String) : String :=
  String.mk (((s.toList.dropWhile pyIsSpace).reverse.dropWhile pyIsSpace).reverse)

/-- A Python exception, reduced to what the scripts inspect:
`type(e).__name__` and `str(e)`. -/
structure Exn where
  typeName : String
  msg : String
deriving DecidableEq, Repr

/-- `error_str = str(e).lower()` as computed by the scripts.  This is
`String.toLower` (character-wise `Char.toLower`) written over the
character list so that it evaluates by kernel reduction. -/
def errorStr (e : Exn) : String := String.mk (e.msg.toList.map Char.toLower)

/-- The `is_api_error` test of `_exponential_backoff_retry`
(translate_docs.py lines 149-155). -/
def isApiError (e : Exn) : Bool :=
  strContains e.typeName "APIError" ||
  strContains e.typeName "GoogleAPIError" ||
  strContains (errorStr e) "quota" ||
  strContains (errorStr e) "rate limit" ||
  strContains (errorStr e) "429"

/-- The `is_unavailable` test of `_exponential_backoff_retry`
(translate_docs.py lines 157-161). -/
def isUnavailable (e : Exn) : Bool :=
  strContains (errorStr e) "unavailable" ||
  strContains (errorStr e) "not found" ||
  strContains (errorStr e) "permission"

/-- Observable events of one `_exponential_backoff_retry` run:
an invocation of the wrapped function (with its attempt index) or a
`time.sleep` with its duration in seconds. -/
inductive REv where
  | call (attempt : Nat)
  | sleep (delay : ℚ)
deriving DecidableEq, Repr

/-- Result of `_exponential_backoff_retry`: the wrapped function's value,
`None`, or the `RuntimeError("Model unavailable: ...")` it raises. -/
inductive RRes where
  | ok (s : String)
  | failed
  | unavailable (e : Exn)
deriving DecidableEq, Repr

/-- The loop body of `_exponential_backoff_retry` from iteration `attempt`
on, with `fuel` iterations left (`fuel = maxRetries + 1 - attempt`
throughout; the `fuel = 0` case is the unreachable `return None` after the
`for` loop).  `fn attempt` is the outcome of the `attempt`-th invocation of
the wrapped function. -/
def retryFrom (fn : Nat → Except Exn String) (maxRetries : Nat) (baseDelay : ℚ) :
    Nat → Nat → List REv × RRes
  | _, 0 => ([], RRes.failed)
  | attempt, fuel + 1 =>
    match fn attempt with
    | .ok s => ([REv.call attempt], RRes.ok s)
    | .error e =>
      if isUnavailable e then
        ([REv.call attempt], RRes.unavailable e)
      else if isApiError e && decide (attempt < maxRetries) then
        let rest := retryFrom fn maxRetries baseDelay (attempt + 1) fuel
        (REv.call attempt :: REv.sleep (baseDelay * 2 ^ attempt) :: rest.1, rest.2)
      else
        ([REv.call attempt], RRes.failed)

/-- `_exponential_backoff_retry(fn, max_retries, base_delay)`
(lines 123-181): the trace of calls and sleeps, paired with the outcome. -/
def _exponential_backoff_retry (fn : Nat → Except Exn String) (maxRetries : Nat)
    (baseDelay : ℚ) : List REv × RRes :=
  retryFrom fn maxRetries baseDelay 0 (maxRetries + 1)

/-- Number of invocations of the wrapped function in a retry trace. -/
def callCount : List REv → Nat
  | [] => 0
  | REv.call _ :: rest => callCount rest + 1
  | REv.sleep _ :: rest => callCount rest

/-- The sleep durations of a retry trace, in order. -/
def sleeps : List REv → List ℚ
  | [] => []
  | REv.call _ :: rest => sleeps rest
  | REv.sleep d :: rest => d :: sleeps rest

/-- `MAPPINGS` (translate_docs.py lines 10-13). -/
def MAPPINGS : List (String × String) :=
  [("README.md", ".docs-i18n/ru/README.md"), ("docs", ".docs-i18n/ru/docs")]

/-- `MODEL_PRIORITIES` (translate_docs.py lines 15-23). -/
def MODEL_PRIORITIES : List String :=
  ["gemini-3-flash-preview", "gemini-2.5-flash", "gemini-2.5-flash-lite",
   "gemini-2.5-pro", "gemini-2.0-flash", "gemini-2.0-flash-lite", "gemini-2.0-pro"]

/-- `CONTEXT_PROMPT` (translate_docs.py lines 25-36). -/
def CONTEXT_PROMPT : String :=
  "\nProject Context: \"RuleDesk\" - A modern desktop client for Rule34 imageboard content built with Electron, React, TypeScript, and Drizzle ORM.\n\nGLOSSARY (DO NOT TRANSLATE THESE):\n- Rule34, Gelbooru, Booru\n- IPC (Inter-Process Communication)\n- Main Process, Renderer Process\n- Drizzle ORM, SQLite\n- Store, State\n- Props, Components\n- Tag, Blacklist\n"

/-- `HEADER` (translate_docs.py line 39): the empty string. -/
def HEADER : String := ""

/-- The f-string prompt built by `translate_text` (lines 196-211),
with `CONTEXT_PROMPT` and the file content interpolated. -/
def mkPrompt (text : String) : String :=
  "\n    Role: Senior Technical Translator (English -> Russian).\n    Task: Translate the Markdown documentation for the \"RuleDesk\" project.\n    \n    " ++ CONTEXT_PROMPT ++ "\n    \n    STRICT RULES:\n    1. KEEP all Markdown syntax (tables, links, code blocks, bold/italic) EXACTLY as is.\n    2. DO NOT translate code blocks or inline code (`const x = 1`).\n    3. DO NOT translate the glossary terms listed above.\n    4. Tone: Professional, concise, suitable for GitHub technical docs (Хабр style).\n    5. Output ONLY the translated markdown.\n    \n    File Content:\n    " ++ text ++ "\n    "

/-- `_call_api` (lines 213-217): one `model.generate_content` call, given as
the oracle `gen` from prompt to outcome, followed by the response check that
raises `ValueError` on an empty or shorter-than-10-character response. -/
def callApi (gen : String → Except Exn String) (prompt : String) : Except Exn String :=
  match gen prompt with
  | .error e => .error e
  | .ok t =>
    if t = "" || decide (t.length < 10) then
      .error ⟨"ValueError", "Empty or too short response from API"⟩
    else .ok t

/-- `translate_text` (lines 183-224): build the prompt and run `_call_api`
under `_exponential_backoff_retry(max_retries=3, base_delay=2.0)`.  The
oracle `gen` takes the attempt index, since each attempt is a fresh
`generate_content` call.  The `.error` outcome is the
`RuntimeError("Model unavailable: ...")` the retry loop raises, which this
function lets propagate. -/
def translate_text (gen : Nat → String → Except Exn String) (text : String) :
    List REv × Except Exn (Option String) :=
  let prompt := mkPrompt text
  let run := _exponential_backoff_retry (fun attempt => callApi (gen attempt) prompt) 3 2
  match run.2 with
  | RRes.ok s => (run.1, .ok (some s))
  | RRes.failed => (run.1, .ok none)
  | RRes.unavailable e => (run.1, .error ⟨"RuntimeError", "Model unavailable: " ++ e.msg⟩)

/-- `_needs_translation` (lines 97-121).  `sha256` stands for
`_get_file_hash`, the SHA-256 hex digest of a file's bytes, applied to the
file's content (the content determines the bytes).  `targetExists` is
`os.path.exists(target_path)`; `sourceRead` is the source file's content,
`none` when reading it raises `IOError`/`OSError`; `hashFileExists` is
`os.path.exists(target_path + ".hash")` and `hashFileRead` that sidecar's
content, `none` when reading it raises. -/
def _needs_translation (sha256 : String → String) (targetExists : Bool)
    (sourceRead : Option String) (hashFileExists : Bool)
    (hashFileRead : Option String) : Bool :=
  if !targetExists then true
  else
    match sourceRead with
    | none => true
    | some src =>
      if hashFileExists then
        match hashFileRead with
        | none => true
        | some stored => decide (sha256 src ≠ pyStrip stored)
      else true

/-- Observable events of `_translate_file` and of the fallback loop:
the staleness check, the retry loop's calls and sleeps, `os.makedirs`,
the write of the translated target file, and the write of the sidecar
hash file. -/
inductive FEv where
  | checkStale
  | retryEv (r : REv)
  | mkdirs
  | writeTarget (content : String)
  | writeHash (h : String)
deriving DecidableEq

/-- `_translate_file` (lines 280-328): read the source (a `none` read is the
`IOError` caught at line 323, returning `False`), skip blank content,
translate, and on success write `HEADER + translated` to the target and
then the source digest to the sidecar.  The `.error` outcome is the
`RuntimeError` re-raised at lines 320-322 for the fallback loop. -/
def _translate_file (gen : Nat → String → Except Exn String) (sha256 : String → String)
    (sourceRead : Option String) : List FEv × Except Exn Bool :=
  match sourceRead with
  | none => ([], .ok false)
  | some content =>
    if pyStrip content = "" then ([], .ok false)
    else
      let run := translate_text gen content
      let evs := run.1.map FEv.retryEv
      match run.2 with
      | .error e => (evs, .error e)
      | .ok none => (evs, .ok false)
      | .ok (some t) =>
        if t = "" then (evs, .ok false)
        else
          (evs ++ [FEv.mkdirs, FEv.writeTarget (HEADER ++ t),
                   FEv.writeHash (sha256 content)], .ok true)

/-- The `while model_index < len(MODEL_PRIORITIES)` loop of
`_translate_file_with_fallback` (lines 260-278), from model index `idx` on.
`tf idx` is the outcome of `_translate_file` with the model at priority
index `idx`; `fuel = n - idx` throughout (the `fuel = 0` case is the
`return None` after the loop).  Returns the accumulated events, the list of
model indices tried in order, and the function's return value (`some idx`
for the `(model_index, current_model)` tuple when the model was switched,
`none` for Python `None`). -/
def fallbackFrom (tf : Nat → List FEv × Except Exn Bool) (n initialIndex : Nat) :
    Nat → Nat → List FEv × List Nat × Option Nat
  | _, 0 => ([], [], none)
  | idx, fuel + 1 =>
    if n ≤ idx then ([], [], none)
    else
      let run := tf idx
      match run.2 with
      | .ok _b =>
        (run.1, [idx], if initialIndex < idx then some idx else none)
      | .error _e =>
        if n ≤ idx + 1 then (run.1, [idx], none)
        else
          let rest := fallbackFrom tf n initialIndex (idx + 1) fuel
          (run.1 ++ rest.1, idx :: rest.2.1, rest.2.2)

/-- `_translate_file_with_fallback` (lines 248-278): check staleness first,
then run the fallback loop over `MODEL_PRIORITIES` starting at
`currentModelIndex`.  `gens idx` is the generate-content oracle of the model
at priority index `idx`. -/
def _translate_file_with_fallback (sha256 : String → String)
    (gens : Nat → Nat → String → Except Exn String)
    (targetExists : Bool) (sourceRead : Option String)
    (hashFileExists : Bool) (hashFileRead : Option String)
    (currentModelIndex : Nat) : List FEv × List Nat × Option Nat :=
  if !(_needs_translation sha256 targetExists sourceRead hashFileExists hashFileRead) then
    ([FEv.checkStale], [], none)
  else
    let tf := fun idx => _translate_file (gens idx) sha256 sourceRead
    let rest := fallbackFrom tf MODEL_PRIORITIES.length currentModelIndex
        currentModelIndex (MODEL_PRIORITIES.length - currentModelIndex)
    (FEv.checkStale :: rest.1, rest.2)

/-- Drop `pre` from the front of `l`, or `none` if `pre` is not a prefix. -/
def dropPref : List Char → List Char → Option (List Char)
  | [], ys => some ys
  | _ :: _, [] => none
  | x :: xs, y :: ys => if x = y then dropPref xs ys else none

/-- `os.path.relpath(p, base)` in the case the glob guarantees: `p` lies
under the directory `base`, so the relative path is `p` with the prefix
`base + "/"` removed. -/
def relpathUnder (base p : String) : Option String :=
  (dropPref (base ++ "/").toList p.toList).map fun cs => String.mk cs

/-- `os.path.join(a, b)` for the relative second components produced by
`os.path.relpath`. -/
def joinPath (a b : String) : String := a ++ "/" ++ b

/-- The source-to-target path mapping computed by `process_item`
(lines 226-246): a file source maps to the target base itself; a directory
source maps each globbed markdown file to the target base joined with the
file's path relative to the source directory.  `globResults` is what
`glob.glob(f"{source}/**/*.md", recursive=True)` returns. -/
def process_item_targets (isFile isDir : Bool) (globResults : List String)
    (source targetBase : String) : List (String × String) :=
  if isFile then [(source, targetBase)]
  else if isDir then
    globResults.filterMap fun f =>
      (relpathUnder source f).map fun rel => (f, joinPath targetBase rel)
  else []

end Scripts

namespace WScripts

/-- `MAPPINGS` (workflows variant, lines 9-12). -/
def MAPPINGS : List (String × String) :=
  [("README.md", ".docs-i18n/ru/README.md"), ("docs", ".docs-i18n/ru/docs")]

/-- `MODEL_NAME` (workflows variant, line 28): the single hardcoded model. -/
def MODEL_NAME : String := "gemini-3-flash-preview"

/-- `CONTEXT_PROMPT` (workflows variant, lines 14-25). -/
def CONTEXT_PROMPT : String :=
  "\nProject Context: \"RuleDesk\" - A modern desktop client for Rule34 imageboard content built with Electron, React, TypeScript, and Drizzle ORM.\n\nGLOSSARY (DO NOT TRANSLATE THESE):\n- Rule34, Gelbooru, Booru\n- IPC (Inter-Process Communication)\n- Main Process, Renderer Process\n- Drizzle ORM, SQLite\n- Store, State\n- Props, Components\n- Tag, Blacklist\n"

/-- `HEADER` (workflows variant, line 30): the empty string. -/
def HEADER : String := ""

/-- The f-string prompt built by `translate_text`
(workflows variant, lines 42-57). -/
def mkPrompt (text : String) : String :=
  "\n    Role: Senior Technical Translator (English -> Russian).\n    Task: Translate the Markdown documentation for the \"RuleDesk\" project.\n    \n    " ++ CONTEXT_PROMPT ++ "\n    \n    STRICT RULES:\n    1. KEEP all Markdown syntax (tables, links, code blocks, bold/italic) EXACTLY as is.\n    2. DO NOT translate code blocks or inline code (`const x = 1`).\n    3. DO NOT translate the glossary terms listed above.\n    4. Tone: Professional, concise, suitable for GitHub technical docs (Хабр style).\n    5. Output ONLY the translated markdown.\n    \n    File Content:\n    " ++ text ++ "\n    "

/-- Observable events of the basic variant's `_translate_file`: the single
`generate_content` call (with its prompt), `os.makedirs`, the target write,
and the `time.sleep(1)` after a successful save. -/
inductive BEv where
  | apiCall (prompt : String)
  | mkdirs
  | writeTarget (content : String)
  | sleep (seconds : ℚ)
deriving DecidableEq

/-- `translate_text` (workflows variant, lines 39-67): one
`generate_content` call via the oracle `gen`; any exception and any empty or
shorter-than-10-character response yield `None`. -/
def translate_text (gen : String → Except Scripts.Exn String) (text : String) :
    List BEv × Option String :=
  let prompt := mkPrompt text
  match gen prompt with
  | .error _e => ([BEv.apiCall prompt], none)
  | .ok t =>
    if t = "" || decide (t.length < 10) then ([BEv.apiCall prompt], none)
    else ([BEv.apiCall prompt], some t)

/-- `_translate_file` (workflows variant, lines 84-105): read the source
(a `none` read is the exception caught at line 104), skip blank content,
translate, and on success write `HEADER + translated` to the target and
sleep one second.  There is no staleness check and no sidecar file. -/
def _translate_file (gen : String → Except Scripts.Exn String)
    (sourceRead : Option String) : List BEv :=
  match sourceRead with
  | none => []
  | some content =>
    if Scripts.pyStrip content = "" then []
    else
      let run := translate_text gen content
      match run.2 with
      | none => run.1
      | some t =>
        if t = "" then run.1
        else run.1 ++ [BEv.mkdirs, BEv.writeTarget (HEADER ++ t), BEv.sleep 1]

/-- The source-to-target path mapping computed by `process_item`
(workflows variant, lines 69-82); identical to the advanced variant's. -/
def process_item_targets (isFile isDir : Bool) (globResults : List String)
    (source targetBase : String) : List (String × String) :=
  if isFile then [(source, targetBase)]
  else if isDir then
    globResults.filterMap fun f =>
      (Scripts.relpathUnder source f).map fun rel => (f, Scripts.joinPath targetBase rel)
  else []

end WScripts

namespace Scripts

/-- The events that modify the output tree: the target write and the
sidecar hash write. -/
def isWriteEv : FEv → Bool
  | FEv.writeTarget _ => true
  | FEv.writeHash _ => true
  | _ => false

end Scripts

section RetryLemmas

/-- The retry loop makes at most `fuel` invocations of the wrapped
function. -/
theorem callCount_retryFrom (fn : Nat → Except Scripts.Exn String) (mr : Nat) (bd : ℚ) :
    ∀ fuel a, Scripts.callCount (Scripts.retryFrom fn mr bd a fuel).1 ≤ fuel := by
  intro fuel
  induction fuel with
  | zero => intro a; simp [Scripts.retryFrom, Scripts.callCount]
  | succ k ih =>
    intro a
    simp only [Scripts.retryFrom]
    cases hfn : fn a with
    | ok s => simp [Scripts.callCount]
    | error e =>
      by_cases hu : Scripts.isUnavailable e
      · simp [hu, Scripts.callCount]
      · cases hb : (Scripts.isApiError e && decide (a < mr)) with
        | false => simp [hu, hb, Scripts.callCount]
        | true =>
          simp only [hu, hb, Bool.false_eq_true, if_false, if_true, Scripts.callCount]
          exact Nat.succ_le_succ (ih (a + 1))

/-- A successful invocation ends the retry loop at once. -/
theorem retryFrom_ok (fn : Nat → Except Scripts.Exn String) (mr : Nat) (bd : ℚ)
    (a : Nat) (s : String) (fuel : Nat) (hfn : fn a = .ok s) :
    Scripts.retryFrom fn mr bd a (fuel + 1) =
      ([Scripts.REv.call a], Scripts.RRes.ok s) := by
  simp [Scripts.retryFrom, hfn]

/-- An unavailability-class error ends the retry loop at once with the
raised outcome: no sleep, no further invocation. -/
theorem retryFrom_unavailable (fn : Nat → Except Scripts.Exn String) (mr : Nat) (bd : ℚ)
    (a : Nat) (e : Scripts.Exn) (fuel : Nat) (hfn : fn a = .error e)
    (hu : Scripts.isUnavailable e = true) :
    Scripts.retryFrom fn mr bd a (fuel + 1) =
      ([Scripts.REv.call a], Scripts.RRes.unavailable e) := by
  simp [Scripts.retryFrom, hfn, hu]

/-- A rate-limit-class (and not unavailability-class) error with attempts
remaining sleeps `bd * 2 ^ a` and continues with the next attempt. -/
theorem retryFrom_ratelimit_step (fn : Nat → Except Scripts.Exn String) (mr : Nat) (bd : ℚ)
    (a : Nat) (e : Scripts.Exn) (fuel : Nat) (ha : a < mr) (hfn : fn a = .error e)
    (hu : Scripts.isUnavailable e = false) (hap : Scripts.isApiError e = true) :
    Scripts.retryFrom fn mr bd a (fuel + 1) =
      (Scripts.REv.call a :: Scripts.REv.sleep (bd * 2 ^ a) ::
         (Scripts.retryFrom fn mr bd (a + 1) fuel).1,
       (Scripts.retryFrom fn mr bd (a + 1) fuel).2) := by
  simp [Scripts.retryFrom, hfn, hu, hap, ha]

/-- A non-unavailability error on which the loop does not retry (either not
rate-limit-class, or no attempts remaining) returns `None` at once. -/
theorem retryFrom_giveup (fn : Nat → Except Scripts.Exn String) (mr : Nat) (bd : ℚ)
    (a : Nat) (e : Scripts.Exn) (fuel : Nat) (hfn : fn a = .error e)
    (hu : Scripts.isUnavailable e = false)
    (hc : (Scripts.isApiError e && decide (a < mr)) = false) :
    Scripts.retryFrom fn mr bd a (fuel + 1) =
      ([Scripts.REv.call a], Scripts.RRes.failed) := by
  simp only [Scripts.retryFrom, hfn, hu, hc, Bool.false_eq_true, if_false]

end RetryLemmas

/-- C1: `_needs_translation` returns `False` — the file is skipped — iff
the target file exists, the sidecar hash file exists and is readable, and
the stripped sidecar content equals the SHA-256 hex digest of the source
file's current content; in every other case (missing target, unreadable
source, missing or unreadable sidecar, differing digest) it returns
`True`. -/
theorem needs_translation_false_iff (sha256 : String → String) (tE : Bool)
    (sR : Option String) (hE : Bool) (hR : Option String) :
    Scripts._needs_translation sha256 tE sR hE hR = false ↔
      tE = true ∧ ∃ src, sR = some src ∧ hE = true ∧
        ∃ stored, hR = some stored ∧ sha256 src = Scripts.pyStrip stored := by
  cases tE <;> cases sR <;> cases hE <;> cases hR <;>
    simp [Scripts._needs_translation, decide_eq_false_iff_not, ne_eq, not_not]

/-- C2 counterexample: the exception with type name `"APIError"` and
message `"service unavailable"` is rate-limit-class by the claim's own
definition (its type name contains `"APIError"`), and at attempt 0 there
are attempts remaining (`0 < max_retries = 3`); yet the retry loop does not
wait `base_delay * 2 ^ 0` seconds before a next attempt — it stops after
the single call and raises, because the unavailability test takes
precedence over the rate-limit test. -/
theorem retry_ratelimit_claim_cex :
    Scripts.isApiError ⟨"APIError", "service unavailable"⟩ = true ∧
    Scripts._exponential_backoff_retry
        (fun _ => Except.error ⟨"APIError", "service unavailable"⟩) 3 2 =
      ([Scripts.REv.call 0],
       Scripts.RRes.unavailable ⟨"APIError", "service unavailable"⟩) := by
  exact ⟨by decide, rfl⟩

/-- C2 (amended): the retry loop calls the wrapped function at most
`max_retries + 1` times; on a rate-limit-class error that is not also
unavailability-class, with attempts remaining, it sleeps
`base_delay * 2 ^ attempt` and proceeds to the next attempt — for the
translation call's `max_retries = 3`, `base_delay = 2.0` the delays are
2, 4, 8 seconds; on such an error with no attempts remaining, or on any
non-rate-limit, non-unavailability error, it returns `None` immediately
without further attempts. -/
theorem retry_backoff_spec (fn : Nat → Except Scripts.Exn String) (mr : Nat) (bd : ℚ) :
    Scripts.callCount (Scripts._exponential_backoff_retry fn mr bd).1 ≤ mr + 1
    ∧ (∀ a e, a < mr → fn a = .error e → Scripts.isUnavailable e = false →
        Scripts.isApiError e = true →
        Scripts.retryFrom fn mr bd a (mr + 1 - a) =
          (Scripts.REv.call a :: Scripts.REv.sleep (bd * 2 ^ a) ::
             (Scripts.retryFrom fn mr bd (a + 1) (mr - a)).1,
           (Scripts.retryFrom fn mr bd (a + 1) (mr - a)).2))
    ∧ (∀ e, fn mr = .error e → Scripts.isUnavailable e = false →
        Scripts.isApiError e = true →
        Scripts.retryFrom fn mr bd mr 1 = ([Scripts.REv.call mr], Scripts.RRes.failed))
    ∧ (∀ a e fuel, fn a = .error e → Scripts.isUnavailable e = false →
        Scripts.isApiError e = false →
        Scripts.retryFrom fn mr bd a (fuel + 1) =
          ([Scripts.REv.call a], Scripts.RRes.failed))
    ∧ (∀ (gen : Nat → String → Except Scripts.Exn String) (text : String),
        (∀ a, a ≤ 3 → ∃ e, Scripts.callApi (gen a) (Scripts.mkPrompt text) = .error e ∧
            Scripts.isApiError e = true ∧ Scripts.isUnavailable e = false) →
        Scripts.sleeps (Scripts.translate_text gen text).1 = [2, 4, 8]
        ∧ (Scripts.translate_text gen text).2 = Except.ok none) := by
  refine ⟨callCount_retryFrom fn mr bd (mr + 1) 0, ?_, ?_, ?_, ?_⟩
  · intro a e ha hfn hu hap
    rw [show mr + 1 - a = (mr - a) + 1 from by omega]
    exact retryFrom_ratelimit_step fn mr bd a e (mr - a) ha hfn hu hap
  · intro e hfn hu hap
    exact retryFrom_giveup fn mr bd mr e 0 hfn hu (by simp [hap])
  · intro a e fuel hfn hu hap
    exact retryFrom_giveup fn mr bd a e fuel hfn hu (by simp [hap])
  · intro gen text h
    obtain ⟨e0, h0, a0, u0⟩ := h 0 (by omega)
    obtain ⟨e1, h1, a1, u1⟩ := h 1 (by omega)
    obtain ⟨e2, h2, a2, u2⟩ := h 2 (by omega)
    obtain ⟨e3, h3, a3, u3⟩ := h 3 (by omega)
    have t0 := retryFrom_ratelimit_step
      (fun attempt => Scripts.callApi (gen attempt) (Scripts.mkPrompt text))
      3 2 0 e0 3 (by omega) h0 u0 a0
    have t1 := retryFrom_ratelimit_step
      (fun attempt => Scripts.callApi (gen attempt) (Scripts.mkPrompt text))
      3 2 1 e1 2 (by omega) h1 u1 a1
    have t2 := retryFrom_ratelimit_step
      (fun attempt => Scripts.callApi (gen attempt) (Scripts.mkPrompt text))
      3 2 2 e2 1 (by omega) h2 u2 a2
    have t3 := retryFrom_giveup
      (fun attempt => Scripts.callApi (gen attempt) (Scripts.mkPrompt text))
      3 2 3 e3 0 h3 u3 (by simp)
    simp only [Scripts.translate_text, Scripts._exponential_backoff_retry]
    rw [t0, show Scripts.retryFrom (fun attempt =>
          Scripts.callApi (gen attempt) (Scripts.mkPrompt text)) 3 2 1 3 = _ from t1,
        show Scripts.retryFrom (fun attempt =>
          Scripts.callApi (gen attempt) (Scripts.mkPrompt text)) 3 2 2 2 = _ from t2,
        show Scripts.retryFrom (fun attempt =>
          Scripts.callApi (gen attempt) (Scripts.mkPrompt text)) 3 2 3 1 = _ from t3]
    norm_num [Scripts.sleeps]

/-- Witness for `retry_backoff_spec`: a persistent quota error sleeps
2, 4, 8 seconds across 4 calls and ends in `None`; a plain `TypeError`
gives up after one call. -/
theorem retry_backoff_spec_witness :
    Scripts.callCount (Scripts._exponential_backoff_retry
        (fun _ => Except.error ⟨"APIError", "quota"⟩) 3 2).1 ≤ 4
    ∧ Scripts.sleeps (Scripts.translate_text
        (fun _ _ => Except.error ⟨"APIError", "quota"⟩) "hello").1 = [2, 4, 8]
    ∧ (Scripts.translate_text (fun _ _ => Except.error ⟨"APIError", "quota"⟩) "hello").2 =
        Except.ok none
    ∧ Scripts.retryFrom (fun _ => Except.error ⟨"TypeError", "boom"⟩) 3 2 0 4 =
        ([Scripts.REv.call 0], Scripts.RRes.failed) := by
  obtain ⟨ha, _hb, _hc, _hd, he⟩ :=
    retry_backoff_spec (fun _ => Except.error ⟨"APIError", "quota"⟩) 3 2
  obtain ⟨hs, hr⟩ := he (fun _ _ => Except.error ⟨"APIError", "quota"⟩) "hello"
    (fun a _ => ⟨⟨"APIError", "quota"⟩, rfl, by decide, by decide⟩)
  refine ⟨ha, hs, hr, ?_⟩
  exact (retry_backoff_spec (fun _ => Except.error ⟨"TypeError", "boom"⟩) 3 2).2.2.2.1
    0 ⟨"TypeError", "boom"⟩ 3 rfl (by decide) (by decide)

section FallbackLemmas

/-- When every model from index `start` to the end of the priority list
raises, the fallback loop tries exactly the indices
`start, start+1, ..., n-1` in order, accumulates their traces, and returns
`None`. -/
theorem fallbackFrom_all_error (tf : Nat → List Scripts.FEv × Except Scripts.Exn Bool)
    (n init : Nat) :
    ∀ fuel start, fuel = n - start → start < n →
    (∀ j, start ≤ j → j < n → ∃ e, (tf j).2 = Except.error e) →
    Scripts.fallbackFrom tf n init start fuel =
      ((List.range' start fuel).flatMap (fun j => (tf j).1),
       (List.range' start fuel, none)) := by
  intro fuel
  induction fuel with
  | zero => intro start hf hlt _; omega
  | succ k ih =>
    intro start hf hlt hall
    obtain ⟨e, he⟩ := hall start le_rfl hlt
    simp only [Scripts.fallbackFrom]
    rw [if_neg (by omega : ¬ n ≤ start), he]
    by_cases hlast : n ≤ start + 1
    · have hk : k = 0 := by omega
      subst hk
      simp [if_pos hlast]
    · rw [if_neg hlast]
      rw [ih (start + 1) (by omega) (by omega)
        (fun j hj1 hj2 => hall j (by omega) hj2)]
      simp [List.range'_succ, List.flatMap_cons]

/-- When the models from `start` up to (but not including) `k` raise and
model `k` returns normally, the fallback loop tries
`start, ..., k-1, k` in order, accumulates their traces, and returns from
the `try` body at `k`. -/
theorem fallbackFrom_reaches (tf : Nat → List Scripts.FEv × Except Scripts.Exn Bool)
    (n init k : Nat) (b : Bool) (hk : (tf k).2 = Except.ok b) (hkn : k < n) :
    ∀ fuel start, fuel = n - start → start ≤ k →
    (∀ j, start ≤ j → j < k → ∃ e, (tf j).2 = Except.error e) →
    Scripts.fallbackFrom tf n init start fuel =
      ((List.range' start (k - start)).flatMap (fun j => (tf j).1) ++ (tf k).1,
       (List.range' start (k - start) ++ [k],
        if init < k then some k else none)) := by
  intro fuel
  induction fuel with
  | zero => intro start hf hsk _; omega
  | succ f ih =>
    intro start hf hsk hall
    simp only [Scripts.fallbackFrom]
    rw [if_neg (by omega : ¬ n ≤ start)]
    rcases Nat.lt_or_ge start k with hlt | hge
    · obtain ⟨e, he⟩ := hall start le_rfl hlt
      rw [he, if_neg (by omega : ¬ n ≤ start + 1)]
      rw [ih (start + 1) (by omega) (by omega)
        (fun j hj1 hj2 => hall j (by omega) hj2)]
      have hks : k - start = (k - (start + 1)) + 1 := by omega
      rw [hks, List.range'_succ]
      simp [List.flatMap_cons]
    · have hek : start = k := by omega
      subst hek
      rw [hk]
      simp [Nat.sub_self, List.range']

/-- Every event of a fallback-loop trace comes from one of the tried
`_translate_file` runs. -/
theorem fallbackFrom_mem (tf : Nat → List Scripts.FEv × Except Scripts.Exn Bool)
    (n init : Nat) :
    ∀ fuel start ev, ev ∈ (Scripts.fallbackFrom tf n init start fuel).1 →
    ∃ j, start ≤ j ∧ ev ∈ (tf j).1 := by
  intro fuel
  induction fuel with
  | zero => intro start ev hev; simp [Scripts.fallbackFrom] at hev
  | succ f ih =>
    intro start ev hev
    simp only [Scripts.fallbackFrom] at hev
    by_cases hn : n ≤ start
    · rw [if_pos hn] at hev; simp at hev
    · rw [if_neg hn] at hev
      rcases hres : (tf start).2 with e | b
      · rw [hres] at hev
        by_cases hlast : n ≤ start + 1
        · rw [if_pos hlast] at hev
          exact ⟨start, le_rfl, hev⟩
        · rw [if_neg hlast] at hev
          rcases List.mem_append.mp hev with h | h
          · exact ⟨start, le_rfl, h⟩
          · obtain ⟨j, hj, hm⟩ := ih (start + 1) ev h
            exact ⟨j, by omega, hm⟩
      · rw [hres] at hev
        exact ⟨start, le_rfl, hev⟩

end FallbackLemmas

/-- C3: on an unavailability-class error the retry loop stops at once —
one call, no sleep — with the raised outcome; `translate_text` turns that
outcome into the raised `RuntimeError("Model unavailable: ...")`; and the
fallback loop then advances through `MODEL_PRIORITIES` in list order from
the current index, retrying the same file with each successive model, and
abandons the file (returns `None`) once the index passes the end of the
list, trying no further model. -/
theorem fallback_on_unavailable_spec :
    (∀ (fn : Nat → Except Scripts.Exn String) (mr : Nat) (bd : ℚ) (a : Nat)
        (e : Scripts.Exn) (fuel : Nat),
        fn a = Except.error e → Scripts.isUnavailable e = true →
        Scripts.retryFrom fn mr bd a (fuel + 1) =
          ([Scripts.REv.call a], Scripts.RRes.unavailable e))
    ∧ (∀ (gen : Nat → String → Except Scripts.Exn String) (text : String)
        (e : Scripts.Exn),
        (Scripts._exponential_backoff_retry
            (fun attempt => Scripts.callApi (gen attempt) (Scripts.mkPrompt text)) 3 2).2 =
          Scripts.RRes.unavailable e →
        (Scripts.translate_text gen text).2 =
          Except.error ⟨"RuntimeError", "Model unavailable: " ++ e.msg⟩)
    ∧ (∀ (sha256 : String → String) (gens : Nat → Nat → String → Except Scripts.Exn String)
        (tE : Bool) (sR : Option String) (hE : Bool) (hR : Option String) (start : Nat),
        Scripts._needs_translation sha256 tE sR hE hR = true →
        start < Scripts.MODEL_PRIORITIES.length →
        (∀ j, start ≤ j → j < Scripts.MODEL_PRIORITIES.length →
            ∃ e, (Scripts._translate_file (gens j) sha256 sR).2 = Except.error e) →
        (Scripts._translate_file_with_fallback sha256 gens tE sR hE hR start).2 =
          (List.range' start (Scripts.MODEL_PRIORITIES.length - start), none)) := by
  refine ⟨?_, ?_, ?_⟩
  · intro fn mr bd a e fuel hfn hu
    exact retryFrom_unavailable fn mr bd a e fuel hfn hu
  · intro gen text e h
    simp only [Scripts.translate_text, h]
  · intro sha256 gens tE sR hE hR start hneeds hstart hall
    simp only [Scripts._translate_file_with_fallback, hneeds, Bool.not_true,
      Bool.false_eq_true, if_false]
    rw [fallbackFrom_all_error
      (fun idx => Scripts._translate_file (gens idx) sha256 sR)
      Scripts.MODEL_PRIORITIES.length start
      (Scripts.MODEL_PRIORITIES.length - start) start rfl hstart hall]

/-- Witness for `fallback_on_unavailable_spec`: a "model not found" error
stops the retry loop after one call, and with every model unavailable and
a current index of 5 the fallback loop tries models 5 and 6 and gives
up. -/
theorem fallback_on_unavailable_spec_witness :
    Scripts.retryFrom (fun _ => Except.error ⟨"E", "model not found"⟩) 3 2 0 4 =
      ([Scripts.REv.call 0], Scripts.RRes.unavailable ⟨"E", "model not found"⟩)
    ∧ (Scripts._translate_file_with_fallback (fun s => s)
        (fun _ _ _ => Except.error ⟨"E", "model not found"⟩) false (some "hello world")
        false none 5).2 = ([5, 6], none) := by
  obtain ⟨h1, _h2, h3⟩ := fallback_on_unavailable_spec
  refine ⟨h1 _ 3 2 0 ⟨"E", "model not found"⟩ 3 rfl (by decide), ?_⟩
  have h := h3 (fun s => s) (fun _ _ _ => Except.error ⟨"E", "model not found"⟩)
      false (some "hello world") false none 5 (by decide) (by decide)
      (fun j _ _ => ⟨⟨"RuntimeError", "Model unavailable: model not found"⟩, rfl⟩)
  exact h.trans rfl

section TranslateFileLemmas

/-- A successful `_translate_file` run: the retry trace, then `makedirs`,
then the target write, then the sidecar write, returning `True`. -/
theorem translate_file_success (gen : Nat → String → Except Scripts.Exn String)
    (sha256 : String → String) (content : String) (revs : List Scripts.REv) (t : String)
    (hblank : ¬ Scripts.pyStrip content = "")
    (hok : Scripts.translate_text gen content = (revs, Except.ok (some t)))
    (ht : ¬ t = "") :
    Scripts._translate_file gen sha256 (some content) =
      (revs.map Scripts.FEv.retryEv ++
         [Scripts.FEv.mkdirs, Scripts.FEv.writeTarget (Scripts.HEADER ++ t),
          Scripts.FEv.writeHash (sha256 content)], Except.ok true) := by
  simp only [Scripts._translate_file, hok]
  simp [hblank, ht]

/-- A `_translate_file` run that does not return `True` writes nothing:
its trace holds only retry-loop events. -/
theorem translate_file_no_writes (gen : Nat → String → Except Scripts.Exn String)
    (sha256 : String → String) (sR : Option String)
    (hnot : (Scripts._translate_file gen sha256 sR).2 ≠ Except.ok true) :
    ∀ ev ∈ (Scripts._translate_file gen sha256 sR).1, Scripts.isWriteEv ev = false := by
  intro ev hev
  match sR with
  | none => simp [Scripts._translate_file] at hev
  | some content =>
    by_cases hb : Scripts.pyStrip content = ""
    · simp [Scripts._translate_file, hb] at hev
    · rcases hrun : Scripts.translate_text gen content with ⟨revs, res⟩
      match res with
      | .error e =>
        simp only [Scripts._translate_file, hrun, if_neg hb] at hev
        obtain ⟨r, _, rfl⟩ := List.mem_map.mp hev
        rfl
      | .ok none =>
        simp only [Scripts._translate_file, hrun, if_neg hb] at hev
        obtain ⟨r, _, rfl⟩ := List.mem_map.mp hev
        rfl
      | .ok (some t) =>
        by_cases ht : t = ""
        · simp only [Scripts._translate_file, hrun, if_neg hb, ht, if_pos rfl] at hev
          obtain ⟨r, _, rfl⟩ := List.mem_map.mp hev
          rfl
        · exact absurd (by simp [Scripts._translate_file, hrun, hb, ht]) hnot

end TranslateFileLemmas

/-- C4: for a file whose translation succeeds (at model index `k`, after
the models before it raised), the run's full trace is the staleness check
first, then the failed models' retry events, then the successful model's
retry events — the remote calls — and only then, in this order,
`makedirs`, the write of `HEADER + translated` to the target path, and
the write of the source content's digest to the sidecar `.hash` file;
nothing before the write block touches the output tree. -/
theorem pipeline_persist_order (sha256 : String → String)
    (gens : Nat → Nat → String → Except Scripts.Exn String)
    (tE : Bool) (content : String) (hE : Bool) (hR : Option String)
    (start k : Nat) (revs : List Scripts.REv) (t : String)
    (hneeds : Scripts._needs_translation sha256 tE (some content) hE hR = true)
    (hblank : ¬ Scripts.pyStrip content = "")
    (hsk : start ≤ k) (hkn : k < Scripts.MODEL_PRIORITIES.length)
    (hfail : ∀ j, start ≤ j → j < k →
        ∃ e, (Scripts._translate_file (gens j) sha256 (some content)).2 = Except.error e)
    (hok : Scripts.translate_text (gens k) content = (revs, Except.ok (some t)))
    (ht : ¬ t = "") :
    (Scripts._translate_file_with_fallback sha256 gens tE (some content) hE hR start).1 =
      Scripts.FEv.checkStale ::
        ((List.range' start (k - start)).flatMap
            (fun j => (Scripts._translate_file (gens j) sha256 (some content)).1) ++
          (revs.map Scripts.FEv.retryEv ++
            [Scripts.FEv.mkdirs, Scripts.FEv.writeTarget (Scripts.HEADER ++ t),
             Scripts.FEv.writeHash (sha256 content)]))
    ∧ ∀ ev ∈ (List.range' start (k - start)).flatMap
          (fun j => (Scripts._translate_file (gens j) sha256 (some content)).1),
        Scripts.isWriteEv ev = false := by
  have hsucc := translate_file_success (gens k) sha256 content revs t hblank hok ht
  have hreach := fallbackFrom_reaches
      (fun idx => Scripts._translate_file (gens idx) sha256 (some content))
      Scripts.MODEL_PRIORITIES.length start k true (by simp only [hsucc]) hkn
      (Scripts.MODEL_PRIORITIES.length - start) start rfl hsk hfail
  constructor
  · simp only [Scripts._translate_file_with_fallback, hneeds, Bool.not_true,
      Bool.false_eq_true, if_false]
    rw [hreach]
    simp only [hsucc]
  · intro ev hev
    obtain ⟨j, hj, hevj⟩ := List.mem_flatMap.mp hev
    obtain ⟨hj1, hj2⟩ := List.mem_range'_1.mp hj
    obtain ⟨e, he⟩ := hfail j hj1 (by omega)
    exact translate_file_no_writes (gens j) sha256 (some content)
      (by rw [he]; exact fun hc => Except.noConfusion hc) ev hevj

/-- Witness for `pipeline_persist_order`: a first-model success on a
concrete file. -/
theorem pipeline_persist_order_witness :
    (Scripts._translate_file_with_fallback (fun s => "#" ++ s)
        (fun _ _ _ => Except.ok "0123456789ABC") false (some "hello world")
        false none 0).1 =
      Scripts.FEv.checkStale ::
        ((List.range' 0 0).flatMap
            (fun j => (Scripts._translate_file
              ((fun _ _ _ => Except.ok "0123456789ABC") j)
              (fun s => "#" ++ s) (some "hello world")).1) ++
          ([Scripts.REv.call 0].map Scripts.FEv.retryEv ++
            [Scripts.FEv.mkdirs,
             Scripts.FEv.writeTarget (Scripts.HEADER ++ "0123456789ABC"),
             Scripts.FEv.writeHash ((fun s => "#" ++ s) "hello world")])) :=
  (pipeline_persist_order (fun s => "#" ++ s) (fun _ _ _ => Except.ok "0123456789ABC")
    false "hello world" false none 0 0 [Scripts.REv.call 0] "0123456789ABC"
    (by decide) (by decide) le_rfl (by decide)
    (fun j _ hj => absurd hj (Nat.not_lt_zero j)) rfl (by decide)).1

/-- C10: a failed translation leaves the output tree untouched.  Whether
the first model that returns normally reports failure (`translate_text`
gave `None`, blank content, or unreadable source), or every model from the
current index on raises and the list is exhausted, the run's trace holds no
target write and no sidecar write — so the source file still counts as
needing translation on the next run. -/
theorem translation_failure_no_writes :
    (∀ (sha256 : String → String) (gens : Nat → Nat → String → Except Scripts.Exn String)
        (tE : Bool) (sR : Option String) (hE : Bool) (hR : Option String) (start k : Nat),
        start ≤ k → k < Scripts.MODEL_PRIORITIES.length →
        (∀ j, start ≤ j → j < k →
            ∃ e, (Scripts._translate_file (gens j) sha256 sR).2 = Except.error e) →
        (Scripts._translate_file (gens k) sha256 sR).2 = Except.ok false →
        ∀ ev ∈ (Scripts._translate_file_with_fallback sha256 gens tE sR hE hR start).1,
          Scripts.isWriteEv ev = false)
    ∧ (∀ (sha256 : String → String) (gens : Nat → Nat → String → Except Scripts.Exn String)
        (tE : Bool) (sR : Option String) (hE : Bool) (hR : Option String) (start : Nat),
        (∀ j, start ≤ j → j < Scripts.MODEL_PRIORITIES.length →
            ∃ e, (Scripts._translate_file (gens j) sha256 sR).2 = Except.error e) →
        ∀ ev ∈ (Scripts._translate_file_with_fallback sha256 gens tE sR hE hR start).1,
          Scripts.isWriteEv ev = false) := by
  constructor
  · intro sha256 gens tE sR hE hR start k hsk hkn hfail hok ev hev
    by_cases hneeds : Scripts._needs_translation sha256 tE sR hE hR = true
    · have hreach := fallbackFrom_reaches
        (fun idx => Scripts._translate_file (gens idx) sha256 sR)
        Scripts.MODEL_PRIORITIES.length start k false (by simp only [hok]) hkn
        (Scripts.MODEL_PRIORITIES.length - start) start rfl hsk hfail
      simp only [Scripts._translate_file_with_fallback, hneeds, Bool.not_true,
        Bool.false_eq_true, if_false] at hev
      rw [hreach] at hev
      simp only [List.mem_cons, List.mem_append] at hev
      rcases hev with hev | hev | hev
      · rw [hev]; rfl
      · obtain ⟨j, hj, hevj⟩ := List.mem_flatMap.mp hev
        obtain ⟨hj1, hj2⟩ := List.mem_range'_1.mp hj
        obtain ⟨e, he⟩ := hfail j hj1 (by omega)
        exact translate_file_no_writes (gens j) sha256 sR
          (by rw [he]; exact fun hc => Except.noConfusion hc) ev hevj
      · exact translate_file_no_writes (gens k) sha256 sR
          (by rw [hok]; simp) ev hev
    · have hneeds' : Scripts._needs_translation sha256 tE sR hE hR = false := by
        revert hneeds; cases Scripts._needs_translation sha256 tE sR hE hR <;> simp
      simp only [Scripts._translate_file_with_fallback, hneeds', Bool.not_false,
        if_true, List.mem_singleton] at hev
      rw [hev]; rfl
  · intro sha256 gens tE sR hE hR start hall ev hev
    by_cases hneeds : Scripts._needs_translation sha256 tE sR hE hR = true
    · by_cases hstart : start < Scripts.MODEL_PRIORITIES.length
      · have hall' := fallbackFrom_all_error
          (fun idx => Scripts._translate_file (gens idx) sha256 sR)
          Scripts.MODEL_PRIORITIES.length start
          (Scripts.MODEL_PRIORITIES.length - start) start rfl hstart hall
        simp only [Scripts._translate_file_with_fallback, hneeds, Bool.not_true,
          Bool.false_eq_true, if_false] at hev
        rw [hall'] at hev
        simp only [List.mem_cons] at hev
        rcases hev with hev | hev
        · rw [hev]; rfl
        · obtain ⟨j, hj, hevj⟩ := List.mem_flatMap.mp hev
          obtain ⟨hj1, hj2⟩ := List.mem_range'_1.mp hj
          obtain ⟨e, he⟩ := hall j hj1 (by omega)
          exact translate_file_no_writes (gens j) sha256 sR
            (by rw [he]; exact fun hc => Except.noConfusion hc) ev hevj
      · have hfuel : Scripts.MODEL_PRIORITIES.length - start = 0 := by omega
        simp only [Scripts._translate_file_with_fallback, hneeds, Bool.not_true,
          Bool.false_eq_true, if_false, hfuel, Scripts.fallbackFrom,
          List.mem_singleton] at hev
        rw [hev]; rfl
    · have hneeds' : Scripts._needs_translation sha256 tE sR hE hR = false := by
        revert hneeds; cases Scripts._needs_translation sha256 tE sR hE hR <;> simp
      simp only [Scripts._translate_file_with_fallback, hneeds', Bool.not_false,
        if_true, List.mem_singleton] at hev
      rw [hev]; rfl

/-- Witness for `translation_failure_no_writes`: with every model
unavailable from index 5 on, the retry event in the run's trace is not a
write. -/
theorem translation_failure_no_writes_witness :
    Scripts.isWriteEv (Scripts.FEv.retryEv (Scripts.REv.call 0)) = false :=
  translation_failure_no_writes.2 (fun s => s)
    (fun _ _ _ => Except.error ⟨"E", "model not found"⟩) false (some "hello world")
    false none 5
    (fun j _ _ => ⟨⟨"RuntimeError", "Model unavailable: model not found"⟩, rfl⟩)
    (Scripts.FEv.retryEv (Scripts.REv.call 0)) (by decide)

section ResponseLengthLemmas

/-- A value returned by the retry loop was returned by some invocation of
the wrapped function. -/
theorem retryFrom_ok_origin (fn : Nat → Except Scripts.Exn String) (mr : Nat) (bd : ℚ) :
    ∀ fuel a s, (Scripts.retryFrom fn mr bd a fuel).2 = Scripts.RRes.ok s →
    ∃ i, fn i = Except.ok s := by
  intro fuel
  induction fuel with
  | zero => intro a s h; simp [Scripts.retryFrom] at h
  | succ f ih =>
    intro a s h
    simp only [Scripts.retryFrom] at h
    rcases hfn : fn a with e | s'
    · rw [hfn] at h
      by_cases hu : Scripts.isUnavailable e = true
      · simp [hu] at h
      · simp only [Bool.not_eq_true] at hu
        cases hb : (Scripts.isApiError e && decide (a < mr)) with
        | true =>
          simp only [hu, hb, Bool.false_eq_true, if_false, if_true] at h
          exact ih (a + 1) s h
        | false => simp [hu, hb] at h
    · rw [hfn] at h
      simp at h
      exact ⟨a, by rw [hfn, h]⟩

/-- A response accepted by `_call_api` has at least 10 characters. -/
theorem callApi_ok_min (gen : String → Except Scripts.Exn String) (p t : String)
    (h : Scripts.callApi gen p = Except.ok t) : 10 ≤ t.length := by
  unfold Scripts.callApi at h
  rcases hg : gen p with e | s
  · rw [hg] at h; exact absurd h (by simp)
  · simp only [hg] at h
    by_cases hc : (decide (s = "") || decide (s.length < 10)) = true
    · rw [if_pos hc] at h; exact absurd h (by simp)
    · rw [if_neg hc] at h
      simp only [Except.ok.injEq] at h
      subst h
      simp only [Bool.or_eq_true, decide_eq_true_eq, not_or] at hc
      omega

/-- A translation returned by the advanced `translate_text` has at least
10 characters. -/
theorem translate_text_ok_min (gen : Nat → String → Except Scripts.Exn String)
    (text t : String)
    (h : (Scripts.translate_text gen text).2 = Except.ok (some t)) : 10 ≤ t.length := by
  simp only [Scripts.translate_text] at h
  rcases hres : (Scripts._exponential_backoff_retry
      (fun attempt => Scripts.callApi (gen attempt) (Scripts.mkPrompt text)) 3 2).2 with
    s | _ | e
  · rw [hres] at h
    simp only [Except.ok.injEq, Option.some.injEq] at h
    obtain ⟨i, hi⟩ := retryFrom_ok_origin
      (fun attempt => Scripts.callApi (gen attempt) (Scripts.mkPrompt text)) 3 2
      (3 + 1) 0 s hres
    rw [← h]
    exact callApi_ok_min (gen i) (Scripts.mkPrompt text) s hi
  · rw [hres] at h; simp at h
  · rw [hres] at h; simp at h

/-- Any content written to the target by the advanced `_translate_file`
has at least 10 characters. -/
theorem translate_file_writeTarget_min (gen : Nat → String → Except Scripts.Exn String)
    (sha256 : String → String) (sR : Option String) (s : String)
    (hmem : Scripts.FEv.writeTarget s ∈ (Scripts._translate_file gen sha256 sR).1) :
    10 ≤ s.length := by
  match sR with
  | none => simp [Scripts._translate_file] at hmem
  | some content =>
    by_cases hb : Scripts.pyStrip content = ""
    · simp [Scripts._translate_file, hb] at hmem
    · rcases hrun : Scripts.translate_text gen content with ⟨revs, res⟩
      match res with
      | .error e =>
        simp only [Scripts._translate_file, hrun, if_neg hb] at hmem
        obtain ⟨r, _, hr⟩ := List.mem_map.mp hmem
        exact absurd hr (by simp)
      | .ok none =>
        simp only [Scripts._translate_file, hrun, if_neg hb] at hmem
        obtain ⟨r, _, hr⟩ := List.mem_map.mp hmem
        exact absurd hr (by simp)
      | .ok (some t) =>
        by_cases ht : t = ""
        · simp only [Scripts._translate_file, hrun, if_neg hb, ht, if_pos rfl] at hmem
          obtain ⟨r, _, hr⟩ := List.mem_map.mp hmem
          exact absurd hr (by simp)
        · simp only [Scripts._translate_file, hrun, if_neg hb, if_neg ht] at hmem
          have hlen := translate_text_ok_min gen content t (by rw [hrun])
          rcases List.mem_append.mp hmem with h | h
          · obtain ⟨r, _, hr⟩ := List.mem_map.mp h
            exact absurd hr (by simp)
          · simp only [List.mem_cons, List.not_mem_nil, or_false] at h
            rcases h with h | h | h
            · exact absurd h (by simp)
            · have hst : s = Scripts.HEADER ++ t := by
                simpa using h
              rw [hst, Scripts.HEADER]
              rw [show ("" ++ t : String) = t from rfl]
              exact hlen
            · exact absurd h (by simp)

/-- A translation returned by the basic `translate_text` has at least
10 characters. -/
theorem wtranslate_ok_min (gen : String → Except Scripts.Exn String) (text t : String)
    (h : (WScripts.translate_text gen text).2 = some t) : 10 ≤ t.length := by
  simp only [WScripts.translate_text] at h
  rcases hg : gen (WScripts.mkPrompt text) with e | s
  · rw [hg] at h; simp at h
  · simp only [hg] at h
    by_cases hc : (decide (s = "") || decide (s.length < 10)) = true
    · rw [if_pos hc] at h; simp at h
    · rw [if_neg hc] at h
      simp only [Option.some.injEq] at h
      subst h
      simp only [Bool.or_eq_true, decide_eq_true_eq, not_or] at hc
      omega

end ResponseLengthLemmas

/-- C9: every translation persisted to a target file has at least 10
characters, in both variants; a response that is empty or shorter than
10 characters is rejected — as the raised `ValueError` in the advanced
variant's `_call_api`, and as `None` from the basic variant's
`translate_text` — and is never written. -/
theorem written_translation_min_length :
    (∀ (sha256 : String → String) (gens : Nat → Nat → String → Except Scripts.Exn String)
        (tE : Bool) (sR : Option String) (hE : Bool) (hR : Option String)
        (start : Nat) (s : String),
        Scripts.FEv.writeTarget s ∈
          (Scripts._translate_file_with_fallback sha256 gens tE sR hE hR start).1 →
        10 ≤ s.length)
    ∧ (∀ (gen : String → Except Scripts.Exn String) (sR : Option String) (s : String),
        WScripts.BEv.writeTarget s ∈ WScripts._translate_file gen sR → 10 ≤ s.length)
    ∧ (∀ (gen : String → Except Scripts.Exn String) (p t : String),
        gen p = Except.ok t → t.length < 10 →
        Scripts.callApi gen p =
          Except.error ⟨"ValueError", "Empty or too short response from API"⟩)
    ∧ (∀ (gen : String → Except Scripts.Exn String) (text t : String),
        gen (WScripts.mkPrompt text) = Except.ok t → t.length < 10 →
        (WScripts.translate_text gen text).2 = none) := by
  refine ⟨?_, ?_, ?_, ?_⟩
  · intro sha256 gens tE sR hE hR start s hmem
    by_cases hneeds : Scripts._needs_translation sha256 tE sR hE hR = true
    · simp only [Scripts._translate_file_with_fallback, hneeds, Bool.not_true,
        Bool.false_eq_true, if_false, List.mem_cons] at hmem
      rcases hmem with hmem | hmem
      · exact absurd hmem (by simp)
      · obtain ⟨j, _, hmj⟩ := fallbackFrom_mem
          (fun idx => Scripts._translate_file (gens idx) sha256 sR)
          Scripts.MODEL_PRIORITIES.length start
          (Scripts.MODEL_PRIORITIES.length - start) start
          (Scripts.FEv.writeTarget s) hmem
        exact translate_file_writeTarget_min (gens j) sha256 sR s hmj
    · have hneeds' : Scripts._needs_translation sha256 tE sR hE hR = false := by
        revert hneeds; cases Scripts._needs_translation sha256 tE sR hE hR <;> simp
      simp only [Scripts._translate_file_with_fallback, hneeds', Bool.not_false,
        if_true, List.mem_singleton] at hmem
      exact absurd hmem (by simp)
  · intro gen sR s hmem
    match sR with
    | none => simp [WScripts._translate_file] at hmem
    | some content =>
      by_cases hb : Scripts.pyStrip content = ""
      · simp [WScripts._translate_file, hb] at hmem
      · rcases hg : gen (WScripts.mkPrompt content) with e | r
        · simp [WScripts._translate_file, WScripts.translate_text, hb, hg] at hmem
        · by_cases hc : (decide (r = "") || decide (r.length < 10)) = true
          · simp [WScripts._translate_file, WScripts.translate_text, hb, hg, hc] at hmem
          · have hcc := hc
            simp only [Bool.or_eq_true, decide_eq_true_eq, not_or] at hcc
            simp only [WScripts._translate_file, WScripts.translate_text, if_neg hb,
              hg, if_neg hc, if_neg hcc.1, List.cons_append, List.nil_append,
              List.mem_cons, List.not_mem_nil, or_false] at hmem
            rcases hmem with h | h | h | h
            · exact absurd h (by simp)
            · exact absurd h (by simp)
            · have hst : s = WScripts.HEADER ++ r := by simpa using h
              rw [hst, WScripts.HEADER, show ("" ++ r : String) = r from rfl]
              omega
            · exact absurd h (by simp)
  · intro gen p t hg hlt
    simp [Scripts.callApi, hg, hlt]
  · intro gen text t hg hlt
    simp [WScripts.translate_text, hg, hlt]

/-- Witness for `written_translation_min_length`: the concrete 13-character
translations written by both variants, and the concrete rejections of a
5-character response. -/
theorem written_translation_min_length_witness :
    10 ≤ ("0123456789ABC" : String).length
    ∧ 10 ≤ ("0123456789XYZ" : String).length
    ∧ Scripts.callApi (fun _ => Except.ok "short") "p" =
        Except.error ⟨"ValueError", "Empty or too short response from API"⟩
    ∧ (WScripts.translate_text (fun _ => Except.ok "short") "hello").2 = none := by
  obtain ⟨h1, h2, h3, h4⟩ := written_translation_min_length
  refine ⟨?_, ?_, ?_, ?_⟩
  · exact h1 (fun s => "#" ++ s) (fun _ _ _ => Except.ok "0123456789ABC") false
      (some "hello world") false none 0 "0123456789ABC" (by decide)
  · exact h2 (fun _ => Except.ok "0123456789XYZ") (some "hello world") "0123456789XYZ"
      (by decide)
  · exact h3 (fun _ => Except.ok "short") "p" "short" rfl (by decide)
  · exact h4 (fun _ => Except.ok "short") "hello" "short" rfl (by decide)

section PathLemmas

/-- Dropping a list from the front of itself followed by anything leaves
the appended part. -/
theorem dropPref_self_append : ∀ xs ys : List Char,
    Scripts.dropPref xs (xs ++ ys) = some ys := by
  intro xs
  induction xs with
  | nil => intro ys; rfl
  | cons x xt ih => intro ys; simp [Scripts.dropPref, ih]

/-- `os.path.relpath` recovers the relative path of a file that the glob
found under the source directory. -/
theorem relpath_append (base r : String) :
    Scripts.relpathUnder base (base ++ "/" ++ r) = some r := by
  have hl : (base ++ "/" ++ r).toList = (base ++ "/").toList ++ r.toList := by
    simp [String.toList, String.data_append]
  rw [Scripts.relpathUnder, hl, dropPref_self_append]
  rfl

/-- The directory branch of `process_item` maps each relative path `p`
under the source to `targetBase` joined with `p`. -/
theorem filterMap_targets (source targetBase : String) : ∀ rels : List String,
    List.filterMap
        (fun f => (Scripts.relpathUnder source f).map
          fun rel => (f, Scripts.joinPath targetBase rel))
        (rels.map fun r => source ++ "/" ++ r) =
      rels.map fun r => (source ++ "/" ++ r, Scripts.joinPath targetBase r) := by
  intro rels
  induction rels with
  | nil => rfl
  | cons r rest ih => simp [List.filterMap_cons, relpath_append, ih]

end PathLemmas

/-- C5: the output tree mirrors the input.  In both variants, a directory
source maps every markdown file found under it at relative path `p` to
`target_base` joined with `p`, and a file source maps exactly to the
configured target path. -/
theorem mirrored_output_tree :
    (∀ source targetBase : String, ∀ rels : List String,
        Scripts.process_item_targets false true
            (rels.map fun r => source ++ "/" ++ r) source targetBase =
          rels.map fun r => (source ++ "/" ++ r, Scripts.joinPath targetBase r))
    ∧ (∀ (isDir : Bool) (globResults : List String) (source targetBase : String),
        Scripts.process_item_targets true isDir globResults source targetBase =
          [(source, targetBase)])
    ∧ (∀ source targetBase : String, ∀ rels : List String,
        WScripts.process_item_targets false true
            (rels.map fun r => source ++ "/" ++ r) source targetBase =
          rels.map fun r => (source ++ "/" ++ r, Scripts.joinPath targetBase r))
    ∧ (∀ (isDir : Bool) (globResults : List String) (source targetBase : String),
        WScripts.process_item_targets true isDir globResults source targetBase =
          [(source, targetBase)]) := by
  refine ⟨?_, ?_, ?_, ?_⟩
  · intro source targetBase rels
    simp only [Scripts.process_item_targets, if_true, if_false, Bool.false_eq_true]
    exact filterMap_targets source targetBase rels
  · intro isDir globResults source targetBase
    simp [Scripts.process_item_targets]
  · intro source targetBase rels
    simp only [WScripts.process_item_targets, if_true, if_false, Bool.false_eq_true]
    exact filterMap_targets source targetBase rels
  · intro isDir globResults source targetBase
    simp [WScripts.process_item_targets]

/-- C6 counterexample: the basic variant translates a file that is
unchanged since its last translation.  `WScripts._translate_file` consults
no modification time and no target state — its only inputs are the oracle
and the source content — so this trace is the trace of every run over this
file, including a rerun immediately after the run that wrote the target:
the rerun again calls the API and rewrites the target instead of skipping
the unchanged file. -/
theorem basic_variant_translates_unchanged_cex :
    WScripts._translate_file (fun _ => Except.ok "0123456789abc")
        (some "# RuleDesk docs\n") =
      [WScripts.BEv.apiCall (WScripts.mkPrompt "# RuleDesk docs\n"),
       WScripts.BEv.mkdirs, WScripts.BEv.writeTarget "0123456789abc",
       WScripts.BEv.sleep 1] := rfl

/-- C6 (amended): the basic single-hardcoded-model variant performs no
change detection at all — it calls the translation API for every source
file with non-whitespace content, changed or not — while the advanced
variant decides by content-hash comparison: it skips the file exactly when
the stored sidecar hash matches the source digest, and a run with a false
staleness check does nothing beyond that check. -/
theorem change_detection_amended :
    (∀ (gen : String → Except Scripts.Exn String) (content : String),
        ¬ Scripts.pyStrip content = "" →
        (WScripts._translate_file gen (some content)).head? =
          some (WScripts.BEv.apiCall (WScripts.mkPrompt content)))
    ∧ (∀ (sha256 : String → String)
        (gens : Nat → Nat → String → Except Scripts.Exn String)
        (content stored : String) (start : Nat),
        sha256 content = Scripts.pyStrip stored →
        Scripts._translate_file_with_fallback sha256 gens true (some content)
            true (some stored) start =
          ([Scripts.FEv.checkStale], [], none))
    ∧ (∀ (sha256 : String → String)
        (gens : Nat → Nat → String → Except Scripts.Exn String)
        (tE : Bool) (sR : Option String) (hE : Bool) (hR : Option String) (start : Nat),
        Scripts._needs_translation sha256 tE sR hE hR = false →
        Scripts._translate_file_with_fallback sha256 gens tE sR hE hR start =
          ([Scripts.FEv.checkStale], [], none)) := by
  refine ⟨?_, ?_, ?_⟩
  · intro gen content hb
    rcases hg : gen (WScripts.mkPrompt content) with e | t
    · simp [WScripts._translate_file, WScripts.translate_text, hb, hg]
    · by_cases hc : (decide (t = "") || decide (t.length < 10)) = true
      · simp [WScripts._translate_file, WScripts.translate_text, hb, hg, hc]
      · have hcc := hc
        simp only [Bool.or_eq_true, decide_eq_true_eq, not_or] at hcc
        simp [WScripts._translate_file, WScripts.translate_text, hb, hg, hcc.1, hcc.2]
  · intro sha256 gens content stored start hmatch
    have hneeds : Scripts._needs_translation sha256 true (some content)
        true (some stored) = false := by
      simp [Scripts._needs_translation, hmatch]
    simp [Scripts._translate_file_with_fallback, hneeds]
  · intro sha256 gens tE sR hE hR start hneeds
    simp [Scripts._translate_file_with_fallback, hneeds]

/-- Witness for `change_detection_amended`: the basic variant's first
action on a concrete non-blank file is the API call, while the advanced
variant skips the same file when its sidecar hash matches. -/
theorem change_detection_amended_witness :
    (WScripts._translate_file (fun _ => Except.ok "0123456789abc")
        (some "# RuleDesk docs\n")).head? =
      some (WScripts.BEv.apiCall (WScripts.mkPrompt "# RuleDesk docs\n"))
    ∧ Scripts._translate_file_with_fallback (fun s => s)
        (fun _ _ _ => Except.ok "0123456789abc") true (some "# RuleDesk docs")
        true (some " # RuleDesk docs \n") 0 =
      ([Scripts.FEv.checkStale], [], none) := by
  obtain ⟨h1, h2, _h3⟩ := change_detection_amended
  exact ⟨h1 (fun _ => Except.ok "0123456789abc") "# RuleDesk docs\n" (by decide),
    h2 (fun s => s) (fun _ _ _ => Except.ok "0123456789abc") "# RuleDesk docs"
      " # RuleDesk docs \n" 0 (by decide)⟩

/-- C7: with the remote endpoint modelled as one oracle from prompt to
response, on a first-attempt success both variants build the same prompt
from the same template and write the same content — `HEADER + translated`,
with both `HEADER`s empty — and both compute the same source-to-target
path mapping; the advanced variant's run differs only by its retry-loop
trace and the added sidecar hash write. -/
theorem variants_first_attempt_agree (gen : String → Except Scripts.Exn String)
    (sha256 : String → String) (content t : String)
    (hg : gen (Scripts.mkPrompt content) = Except.ok t)
    (hlen : 10 ≤ t.length)
    (hblank : ¬ Scripts.pyStrip content = "") :
    WScripts.mkPrompt content = Scripts.mkPrompt content
    ∧ WScripts._translate_file gen (some content) =
        [WScripts.BEv.apiCall (WScripts.mkPrompt content), WScripts.BEv.mkdirs,
         WScripts.BEv.writeTarget (WScripts.HEADER ++ t), WScripts.BEv.sleep 1]
    ∧ Scripts._translate_file (fun _ => gen) sha256 (some content) =
        ([Scripts.FEv.retryEv (Scripts.REv.call 0), Scripts.FEv.mkdirs,
          Scripts.FEv.writeTarget (Scripts.HEADER ++ t),
          Scripts.FEv.writeHash (sha256 content)], Except.ok true)
    ∧ WScripts.HEADER ++ t = Scripts.HEADER ++ t
    ∧ WScripts.process_item_targets = Scripts.process_item_targets := by
  have htne : ¬ t = "" := by
    intro hh; rw [hh] at hlen; exact absurd hlen (by decide)
  have hcond : (decide (t = "") || decide (t.length < 10)) = false := by
    simp only [Bool.or_eq_false_iff, decide_eq_false_iff_not]
    exact ⟨htne, by omega⟩
  have hgw : gen (WScripts.mkPrompt content) = Except.ok t := hg
  have hnlt : ¬ t.length < 10 := by omega
  refine ⟨rfl, ?_, ?_, rfl, rfl⟩
  · simp [WScripts._translate_file, WScripts.translate_text, hblank, hgw, htne, hnlt]
  · have hcall : Scripts.callApi gen (Scripts.mkPrompt content) = Except.ok t := by
      simp [Scripts.callApi, hg, hcond]
    have hret := retryFrom_ok
      (fun attempt => Scripts.callApi ((fun _ => gen) attempt) (Scripts.mkPrompt content))
      3 2 0 t 3 (by simpa using hcall)
    have htt : Scripts.translate_text (fun _ => gen) content =
        ([Scripts.REv.call 0], Except.ok (some t)) := by
      simp only [Scripts.translate_text, Scripts._exponential_backoff_retry]
      rw [hret]
    have := translate_file_success (fun _ => gen) sha256 content
      [Scripts.REv.call 0] t hblank htt htne
    simpa using this

/-- Witness for `variants_first_attempt_agree`: a concrete oracle and
file. -/
theorem variants_first_attempt_agree_witness :
    WScripts.mkPrompt "hello world" = Scripts.mkPrompt "hello world"
    ∧ WScripts._translate_file (fun _ => Except.ok "0123456789ABC")
        (some "hello world") =
        [WScripts.BEv.apiCall (WScripts.mkPrompt "hello world"), WScripts.BEv.mkdirs,
         WScripts.BEv.writeTarget (WScripts.HEADER ++ "0123456789ABC"),
         WScripts.BEv.sleep 1]
    ∧ Scripts._translate_file (fun _ => (fun _ => Except.ok "0123456789ABC"))
        (fun s => "#" ++ s) (some "hello world") =
        ([Scripts.FEv.retryEv (Scripts.REv.call 0), Scripts.FEv.mkdirs,
          Scripts.FEv.writeTarget (Scripts.HEADER ++ "0123456789ABC"),
          Scripts.FEv.writeHash ((fun s => "#" ++ s) "hello world")], Except.ok true)
    ∧ WScripts.HEADER ++ "0123456789ABC" = Scripts.HEADER ++ "0123456789ABC"
    ∧ WScripts.process_item_targets = Scripts.process_item_targets :=
  variants_first_attempt_agree (fun _ => Except.ok "0123456789ABC")
    (fun s => "#" ++ s) "hello world" "0123456789ABC" rfl (by decide) (by decide)

/-- C8: a source file whose content is empty or only whitespace is skipped
by `_translate_file` in both variants: no API call, no write to the target,
no write to any sidecar hash file — the run's trace is empty. -/
theorem blank_source_skipped (gens : Nat → String → Except Scripts.Exn String)
    (gen : String → Except Scripts.Exn String) (sha256 : String → String)
    (content : String) (h : Scripts.pyStrip content = "") :
    Scripts._translate_file gens sha256 (some content) = ([], Except.ok false)
    ∧ WScripts._translate_file gen (some content) = [] := by
  constructor
  · simp [Scripts._translate_file, h]
  · simp [WScripts._translate_file, h]

/-- Witness for `blank_source_skipped`: a whitespace-only file. -/
theorem blank_source_skipped_witness :
    Scripts._translate_file (fun _ _ => Except.ok "0123456789ABC") (fun s => s)
        (some "  \n\t ") = ([], Except.ok false)
    ∧ WScripts._translate_file (fun _ => Except.ok "0123456789ABC")
        (some "  \n\t ") = [] :=
  blank_source_skipped (fun _ _ => Except.ok "0123456789ABC")
    (fun _ => Except.ok "0123456789ABC") (fun s => s) "  \n\t " (by decide)
